import Mathlib

/-!
Verification development for the `remindme` reminder scheduler.

The source is a Go program (`main.go`, final iteration).  Its core state is

  type remindmeState struct {
    reminders []*reminder
    timers    []*time.Timer
    ...
  }

with operations `Add`, `Remove`, a timer-fire callback, `ReadFrom`
(snapshot restore), `WriteTo` (snapshot serialization) and the
construct/deconstruct lifecycle functions.  This file is a shallow
embedding of that core: Go slices become Lean lists, timestamps and
durations become `Int` nanosecond counts, and the runtime behaviour of a
`time.Timer` is reduced to the data the program itself stores in it (the
captured callback key and the fire time).  Concurrency is modelled
sequentially: every source operation runs under the single mutex, so each
is one atomic state transformation.
-/

namespace Remindme

/-- Model of the Go struct `reminder` (final iteration): userID string,
creation and expiration `time.Time` (UTC, nanosecond resolution, modelled
as nanoseconds since the Unix epoch), free-text message. -/
structure Reminder where
  userID : String
  creation : Int
  expiration : Int
  message : String
deriving DecidableEq

/-- Model of one armed `*time.Timer` produced by `time.AfterFunc` in `Add`:
the closure captures `userID, expiration := r.userID, r.expiration` and the
timer is armed to fire at `r.expiration` (it was created with delay
`time.Until(r.expiration)`).  Those two captured values plus the fire time
are all the data the program's timers carry. -/
structure Timer where
  userID : String
  expiration : Int
deriving DecidableEq

/-- Whether `t.Stop()` succeeds at current time `now`: Go's
`(*time.Timer).Stop` reports `true` iff the timer had not yet fired or
begun firing, which in this sequential model is exactly `now` being
strictly before the armed fire time. -/
def Timer.StopOk (now : Int) (t : Timer) : Bool :=
  decide (now < t.expiration)

/-- Model of the Go struct `remindmeState`: the two parallel slices.  The
`session` and mutex fields are runtime plumbing with no bearing on the
store's contents. -/
structure RState where
  reminders : List Reminder
  timers : List Timer
deriving DecidableEq

/-- The zero value of `remindmeState`: both slices nil.  This is the state
at process start and the state `constructRMState` resets to after a failed
restore. -/
def emptyState : RState := ⟨[], []⟩

def defaultReminder : Reminder := ⟨"", 0, 0, ""⟩

def defaultTimer : Timer := ⟨"", 0⟩

/-- Byte-wise lexicographic order on character lists, used to model Go's
built-in string comparison (`<`, `>`, `>=` on `string` compare bytes;
UTF-8 byte order coincides with code-point order). -/
def charListLt : List Char → List Char → Bool
  | [], [] => false
  | [], _ :: _ => true
  | _ :: _, [] => false
  | a :: as, b :: bs =>
    if a.toNat < b.toNat then true
    else if b.toNat < a.toNat then false
    else charListLt as bs

/-- Go `a < b` on strings. -/
def strLt (a b : String) : Bool := charListLt a.data b.data

/-- Go `a > b` on strings. -/
def strGt (a b : String) : Bool := strLt b a

/-- Go `a >= b` on strings. -/
def strGe (a b : String) : Bool := !strLt a b

/-- The loop of Go's `sort.Search`:

    i, j := 0, n
    for i < j {
      h := int(uint(i+j) >> 1)
      if !f(h) { i = h + 1 } else { j = h }
    }
    return i

written with explicit fuel so that it is structurally recursive (each
iteration at least halves `j - i`, so any `fuel ≥ j - i` computes the
loop's fixed point). -/
def searchLoop (f : Nat → Bool) : Nat → Nat → Nat → Nat
  | 0, i, _ => i
  | fuel + 1, i, j =>
    if i < j then
      if f ((i + j) / 2) then searchLoop f fuel i ((i + j) / 2)
      else searchLoop f fuel ((i + j) / 2 + 1) j
    else i

/-- Go's `sort.Search(n, f)`. -/
def sortSearch (n : Nat) (f : Nat → Bool) : Nat := searchLoop f n 0 n

/-- Result of `remindmeState.Add`: the new store, and whether the reminder
was delivered synchronously (the `int64(fromNow) <= 1` branch, in which
`sendReminder()` runs inline and `Add` returns without touching the
store). -/
structure AddOut where
  state : RState
  sentNow : Bool
deriving DecidableEq

/-- Model of `remindmeState.Add` (final iteration).  `now` is the current
time, so Go's `fromNow := time.Until(r.expiration)` is
`r.expiration - now`.  If `int64(fromNow) <= 1` the reminder is sent
synchronously and the store is untouched.  Otherwise a timer armed for
`r.expiration` with captured key `(r.userID, r.expiration)` is created,
and `sort.Search` over `rs.reminders[i].userID > r.userID` picks the
insertion index; the reminder and the timer are inserted at that same
index in their respective slices (the Go append-and-shift sequence is an
insertion at index `i`). -/
def RState.Add (now : Int) (st : RState) (r : Reminder) : AddOut :=
  let fromNow := r.expiration - now
  if fromNow ≤ 1 then ⟨st, true⟩
  else
    let t : Timer := ⟨r.userID, r.expiration⟩
    let i := sortSearch st.reminders.length fun k =>
      strGt (st.reminders.getD k defaultReminder).userID r.userID
    ⟨⟨st.reminders.insertIdx i r, st.timers.insertIdx i t⟩, false⟩

/-- Model of `remindmeState.Remove` (final iteration).  The two
`sort.Search` calls locate the user's range `[i, j)`; a third search on
`authorReminders[i].expiration.Before(expiration)` locates a candidate,
which after `k--` is checked with `Equal`; then the timer at the matched
index is stopped, and only if `Stop()` succeeds are both slices spliced at
that index.  Every failure path returns `false` with the store untouched.
(The source reads the package-global `rmState` inside the search closures
and `rs` elsewhere; the program has a single state and `rs` is always
`&rmState`, so both denote the same store.  Go's single
`k == -1 || !Equal(...)` short-circuit test is written as two nested
tests.) -/
def RState.Remove (now : Int) (st : RState) (userID : String) (expiration : Int) :
    RState × Bool :=
  let n := st.reminders.length
  let i := sortSearch n fun k => strGe (st.reminders.getD k defaultReminder).userID userID
  let j := sortSearch n fun k => strGt (st.reminders.getD k defaultReminder).userID userID
  if j - i = 0 then (st, false)
  else
    let authorReminders := (st.reminders.take j).drop i
    let k0 := sortSearch authorReminders.length fun m =>
      decide ((authorReminders.getD m defaultReminder).expiration < expiration)
    if k0 = 0 then (st, false)
    else if (authorReminders.getD (k0 - 1) defaultReminder).expiration ≠ expiration then
      (st, false)
    else
      let k := k0 - 1 + i
      if ¬ Timer.StopOk now (st.timers.getD k defaultTimer) then (st, false)
      else (⟨st.reminders.eraseIdx k, st.timers.eraseIdx k⟩, true)

/-- Model of the timer callback armed in `Add`:

    t := time.AfterFunc(fromNow, func() {
      sendReminder()
      rs.Remove(userID, expiration)
    })

delivery happens first (outside the store), then the store is updated via
`Remove` with the captured key. -/
def timerFire (now : Int) (st : RState) (t : Timer) : RState × Bool :=
  RState.Remove now st t.userID t.expiration

/-- The store effect of `deconstructRMState` (shutdown): it stops every
timer (a runtime effect on the timer handles) and writes the snapshot; the
`reminders` and `timers` slices themselves are not modified. -/
def shutdownStores (st : RState) : RState := st

/-- Parallel-structure invariant of the store: the two slices have the
same length, and the timer at each index carries exactly the key
`(userID, expiration)` of the reminder at that index (which is how `Add`
creates them). -/
def RState.paired (st : RState) : Prop :=
  st.timers.length = st.reminders.length ∧
  ∀ k, k < st.reminders.length →
    st.timers[k]?.map Timer.userID = st.reminders[k]?.map Reminder.userID ∧
    st.timers[k]?.map Timer.expiration = st.reminders[k]?.map Reminder.expiration

instance decidablePaired (st : RState) : Decidable st.paired :=
  decidable_of_iff (st.timers.length = st.reminders.length ∧
    ∀ k, k < st.reminders.length →
      st.timers[k]?.map Timer.userID = st.reminders[k]?.map Reminder.userID ∧
      st.timers[k]?.map Timer.expiration = st.reminders[k]?.map Reminder.expiration)
    Iff.rfl

/-- The ordering `Add` actually maintains: the reminders slice is sorted
by `userID` (non-strictly; duplicates allowed). -/
def sortedByUser (l : List Reminder) : Prop :=
  l.Pairwise fun a b => strLt b.userID a.userID = false

/-! ### Serialization: `reminder.String` and `remindmeState.WriteTo`

`reminder.String` is `fmt.Sprintf("%s,%s,%s,%q", userID,
creation.Format(RFC3339Nano), expiration.Format(RFC3339Nano), message)`.
The `%q` verb is `strconv.Quote`: a double-quoted Go string literal using
backslash escapes (`\"`, `\\`, `\n`, ...), not CSV doubling. -/

def hexDigit (n : Nat) : Char :=
  if n < 10 then Char.ofNat (48 + n) else Char.ofNat (97 + (n - 10))

/-- One character of `strconv.Quote` output.  Quote and backslash get
backslash escapes; printable ASCII is emitted literally; the named control
escapes and `\xhh` cover the remaining bytes below 0x80.  Runes at or
above 0x80 are emitted literally, which matches Go on printable Unicode
text (Go escapes non-printable non-ASCII runes, which this model's
evaluation domain does not contain). -/
def goQuoteChar (c : Char) : List Char :=
  if c = '"' then ['\\', '"']
  else if c = '\\' then ['\\', '\\']
  else if 32 ≤ c.toNat ∧ c.toNat ≤ 126 then [c]
  else if c = '\n' then ['\\', 'n']
  else if c = '\t' then ['\\', 't']
  else if c.toNat = 13 then ['\\', 'r']
  else if c.toNat = 7 then ['\\', 'a']
  else if c.toNat = 8 then ['\\', 'b']
  else if c.toNat = 12 then ['\\', 'f']
  else if c.toNat = 11 then ['\\', 'v']
  else if c.toNat < 128 then
    ['\\', 'x', hexDigit (c.toNat / 16), hexDigit (c.toNat % 16)]
  else [c]

/-- `strconv.Quote` (the `%q` verb applied to a string). -/
def goQuote (s : String) : List Char :=
  '"' :: (s.data.map goQuoteChar).flatten ++ ['"']

def nsPerSecond : Int := 1000000000

def nsPerDay : Int := 86400 * nsPerSecond

/-- Proleptic-Gregorian date of a day count relative to 1970-01-01 (the
floor-division form of the standard civil-from-days algorithm, as used by
Go's `time` package internally).  Lean's `/` and `%` on `Int` are floor
division and nonnegative remainder for positive divisors, which is what
the algorithm needs. -/
def civilFromDays (z0 : Int) : Int × Int × Int :=
  let z := z0 + 719468
  let era := z / 146097
  let doe := z % 146097
  let yoe := (doe - doe / 1460 + doe / 36524 - doe / 146096) / 365
  let y := yoe + era * 400
  let doy := doe - (365 * yoe + yoe / 4 - yoe / 100)
  let mp := (5 * doy + 2) / 153
  let d := doy - (153 * mp + 2) / 5 + 1
  let m := mp + (if mp < 10 then 3 else -9)
  (if m ≤ 2 then y + 1 else y, m, d)

/-- Inverse of `civilFromDays`: day count of a proleptic-Gregorian date. -/
def daysFromCivil (y0 m d : Int) : Int :=
  let y := if m ≤ 2 then y0 - 1 else y0
  let era := y / 400
  let yoe := y % 400
  let mp := (m + 9) % 12
  let doy := (153 * mp + 2) / 5 + d - 1
  let doe := yoe * 365 + yoe / 4 - yoe / 100 + doy
  era * 146097 + doe - 719468

/-- Decimal digits of `n`, zero-padded on the left to `width`. -/
def padNum (width n : Nat) : List Char :=
  let ds := Nat.toDigits 10 n
  List.replicate (width - ds.length) '0' ++ ds

/-- Drop trailing `'0'` characters (the RFC3339Nano fractional-seconds
profile trims trailing zeros and omits the dot when the fraction is 0). -/
def trimTrailingZeros (l : List Char) : List Char :=
  (l.reverse.dropWhile (· = '0')).reverse

/-- `time.Time.Format(time.RFC3339Nano)` for a UTC time `t` in nanoseconds
since the Unix epoch: `YYYY-MM-DDTHH:MM:SS[.fraction]Z`.  All times the
program formats are UTC (`time.Now().In(time.UTC)` at creation, and
expirations derived from them), so the offset always prints as `Z`. -/
def formatRFC3339Nano (t : Int) : List Char :=
  let day := t / nsPerDay
  let nsod := (t % nsPerDay).toNat
  let ymd := civilFromDays day
  let secs := nsod / 1000000000
  let ns := nsod % 1000000000
  let frac := if ns = 0 then [] else '.' :: trimTrailingZeros (padNum 9 ns)
  padNum 4 ymd.1.toNat ++ '-' :: padNum 2 ymd.2.1.toNat ++ '-' :: padNum 2 ymd.2.2.toNat ++
    'T' :: padNum 2 (secs / 3600) ++ ':' :: padNum 2 (secs / 60 % 60) ++
    ':' :: padNum 2 (secs % 60) ++ frac ++ ['Z']

/-- `reminder.String()` (final iteration): the four comma-separated
fields, message last, quoted with `%q`. -/
def Reminder.String (r : Reminder) : List Char :=
  r.userID.data ++ ',' :: formatRFC3339Nano r.creation ++
    ',' :: formatRFC3339Nano r.expiration ++ ',' :: goQuote r.message

/-- `remindmeState.WriteTo`: every live record serialized with
`reminder.String`, one per line, newline-terminated, in slice order. -/
def RState.WriteTo (st : RState) : List Char :=
  (st.reminders.map fun r => Reminder.String r ++ ['\n']).flatten

/-! ### Parsing: RFC3339Nano timestamps and the CSV reader

`remindmeState.ReadFrom` buffers the input, then reads records with
`encoding/csv` (default configuration: comma delimiter, strict quoting, no
lazy quotes, `FieldsPerRecord` fixed by the first record) and parses the
two timestamp fields with `time.Parse(time.RFC3339Nano, ...)`. -/

def digitVal (c : Char) : Option Nat :=
  if 48 ≤ c.toNat ∧ c.toNat ≤ 57 then some (c.toNat - 48) else none

/-- Exactly `k` decimal digits, most significant first. -/
def parseNDigits : Nat → Nat → List Char → Option (Nat × List Char)
  | 0, acc, cs => some (acc, cs)
  | k + 1, acc, c :: rest =>
    match digitVal c with
    | some d => parseNDigits k (acc * 10 + d) rest
    | none => none
  | _ + 1, _, [] => none

def expectChar (c : Char) : List Char → Option (List Char)
  | x :: rest => if x = c then some rest else none
  | [] => none

def isLeapYear (y : Int) : Bool := (y % 4 = 0 ∧ y % 100 ≠ 0) ∨ y % 400 = 0

def daysInMonth (y m : Int) : Int :=
  if m = 2 then (if isLeapYear y then 29 else 28)
  else if m = 4 ∨ m = 6 ∨ m = 9 ∨ m = 11 then 30
  else 31

/-- Optional fractional-seconds part: a dot followed by 1–9 digits,
returning nanoseconds.  (Go accepts up to nanosecond precision in the
RFC3339Nano layout; the program's own output never exceeds 9 digits.) -/
def parseFrac : List Char → Option (Nat × List Char)
  | '.' :: rest =>
    let ds := rest.takeWhile fun c => (digitVal c).isSome
    if ds.length = 0 ∨ 9 < ds.length then none
    else
      let v := ds.foldl (fun acc c => acc * 10 + ((digitVal c).getD 0)) 0
      some (v * 10 ^ (9 - ds.length), rest.drop ds.length)
  | cs => some (0, cs)

/-- Timezone suffix: `Z` or `±hh:mm`, returning the offset in seconds. -/
def parseZone : List Char → Option (Int × List Char)
  | 'Z' :: rest => some (0, rest)
  | '+' :: rest =>
    (parseNDigits 2 0 rest).bind fun h =>
      (expectChar ':' h.2).bind fun r1 =>
        (parseNDigits 2 0 r1).bind fun m =>
          if h.1 ≤ 23 ∧ m.1 ≤ 59 then some (((h.1 : Int) * 3600 + m.1), m.2) else none
  | '-' :: rest =>
    (parseNDigits 2 0 rest).bind fun h =>
      (expectChar ':' h.2).bind fun r1 =>
        (parseNDigits 2 0 r1).bind fun m =>
          if h.1 ≤ 23 ∧ m.1 ≤ 59 then some ((-((h.1 : Int) * 3600 + m.1)), m.2) else none
  | _ => none

/-- Field-range validation performed by `time.Parse`. -/
def validDateTime (y mo d hh mi ss : Nat) : Bool :=
  decide (1 ≤ mo) && decide (mo ≤ 12) && decide (1 ≤ d) &&
    decide ((d : Int) ≤ daysInMonth (y : Int) (mo : Int)) &&
    decide (hh ≤ 23) && decide (mi ≤ 59) && decide (ss ≤ 59)

/-- Nanoseconds since the Unix epoch of a validated broken-down time. -/
def epochNanos (y mo d hh mi ss : Nat) (frac : Nat) (zoneSecs : Int) : Int :=
  daysFromCivil (y : Int) (mo : Int) (d : Int) * nsPerDay +
    ((hh : Int) * 3600 + (mi : Int) * 60 + (ss : Int) - zoneSecs) * nsPerSecond +
    (frac : Int)

/-- `time.Parse(time.RFC3339Nano, s)`, modelled for the RFC 3339 grammar
`YYYY-MM-DDTHH:MM:SS[.fraction](Z|±hh:mm)` with the field-range validation
Go performs; the result is nanoseconds since the Unix epoch.  The entire
input must be consumed. -/
def parseRFC3339Nano (cs : List Char) : Option Int := do
  let (y, r0) ← parseNDigits 4 0 cs
  let r1 ← expectChar '-' r0
  let (mo, r2) ← parseNDigits 2 0 r1
  let r3 ← expectChar '-' r2
  let (d, r4) ← parseNDigits 2 0 r3
  let r5 ← expectChar 'T' r4
  let (hh, r6) ← parseNDigits 2 0 r5
  let r7 ← expectChar ':' r6
  let (mi, r8) ← parseNDigits 2 0 r7
  let r9 ← expectChar ':' r8
  let (ss, r10) ← parseNDigits 2 0 r9
  let (frac, r11) ← parseFrac r10
  let (zone, r12) ← parseZone r11
  if r12 = [] && validDateTime y mo d hh mi ss then
    some (epochNanos y mo d hh mi ss frac zone)
  else none

/-- How a CSV field ended: at a comma, at a line terminator, or at the end
of the input. -/
inductive FieldEnd where
  | comma
  | newline
  | eof
deriving DecidableEq

/-- An unquoted CSV field (Go `encoding/csv`, `LazyQuotes` false): read up
to the delimiter or line end; a quote character inside a bare field is the
`ErrBareQuote` parse error (`none`). -/
def readBareField : List Char → Option (List Char × FieldEnd × List Char)
  | [] => some ([], .eof, [])
  | c :: rest =>
    if c = ',' then some ([], .comma, rest)
    else if c = '\n' then some ([], .newline, rest)
    else if c = '"' then none
    else (readBareField rest).map fun x => (c :: x.1, x.2.1, x.2.2)

/-- The body of a quoted CSV field, after the opening quote.  A `""` pair
is a literal quote; a lone quote ends the field and must be followed by a
delimiter, a line end, or the end of input, anything else being the
`ErrQuote` parse error (`none`); an unterminated quoted field is also an
error. -/
def readQuotedField : List Char → Option (List Char × FieldEnd × List Char)
  | [] => none
  | '"' :: rest =>
    match rest with
    | '"' :: r2 => (readQuotedField r2).map fun x => ('"' :: x.1, x.2.1, x.2.2)
    | ',' :: r2 => some ([], .comma, r2)
    | '\n' :: r2 => some ([], .newline, r2)
    | [] => some ([], .eof, [])
    | _ => none
  | c :: rest => (readQuotedField rest).map fun x => (c :: x.1, x.2.1, x.2.2)

/-- One CSV record: fields separated by commas until a line end or the end
of input.  `fuel` bounds the number of fields (any fuel above the input
length is enough, every field consuming at least one character except the
last). -/
def readFields : Nat → List Char → Option (List (List Char) × List Char)
  | 0, _ => none
  | fuel + 1, cs =>
    let step := match cs with
      | '"' :: rest => readQuotedField rest
      | _ => readBareField cs
    match step with
    | none => none
    | some (f, .comma, rest) =>
      (readFields fuel rest).map fun x => (f :: x.1, x.2)
    | some (f, .newline, rest) => some ([f], rest)
    | some (f, .eof, rest) => some ([f], rest)

/-- Outcome of `remindmeState.ReadFrom`: a normal return with no error, a
returned error (the store keeps every record already added), or a runtime
panic (`record[1..3]` indexed on a record that is too short — Go
`index out of range`).  `crash` aborts the process: nothing catches it. -/
inductive ReadOutcome where
  | ok (st : RState)
  | err (st : RState)
  | crash (st : RState)
deriving DecidableEq

/-- The record loop of `remindmeState.ReadFrom`: read a CSV record (blank
lines are skipped, the first record fixes the expected field count —
`csv.ErrFieldCount` on a later mismatch), take `record[0]` as the userID,
parse `record[1]` and `record[2]` as RFC3339Nano timestamps (any failure
returns the `invalid reminder record` error), take `record[3]` as the
message, and `rs.Add` the reminder; indexing a field past the record's
length is a panic.  `fuel` above the input length is enough, each record
consuming at least one character. -/
def readLoop (now : Int) : Nat → RState → Option Nat → List Char → ReadOutcome
  | 0, st, _, _ => .err st
  | fuel + 1, st, expected, cs =>
    let cs := cs.dropWhile (· = '\n')
    match cs with
    | [] => .ok st
    | _ :: _ =>
      match readFields (cs.length + 1) cs with
      | none => .err st
      | some (record, rest) =>
        let countOk : Bool := match expected with
          | some nExp => record.length = nExp
          | none => true
        if ¬ countOk then .err st
        else
          let userID := String.mk (record.getD 0 [])
          if 1 < record.length then
            match parseRFC3339Nano (record.getD 1 []) with
            | none => .err st
            | some creation =>
              if 2 < record.length then
                match parseRFC3339Nano (record.getD 2 []) with
                | none => .err st
                | some expiration =>
                  if 3 < record.length then
                    let msg := String.mk (record.getD 3 [])
                    let st' := (RState.Add now st ⟨userID, creation, expiration, msg⟩).state
                    readLoop now fuel st' (some record.length) rest
                  else .crash st
              else .crash st
          else .crash st

/-- `remindmeState.ReadFrom` applied to a fully buffered input. -/
def RState.ReadFrom (now : Int) (st : RState) (input : List Char) : ReadOutcome :=
  readLoop now (input.length + 1) st none input

/-- Outcome of the restore portion of `constructRMState`: the resulting
store plus whether the degraded-restore condition was reported, or a
process crash propagated out of `ReadFrom`. -/
inductive RestoreOutcome where
  | normal (st : RState) (degraded : Bool)
  | crash (st : RState)
deriving DecidableEq

/-- The restore portion of `constructRMState` (after the snapshot file has
been chosen and read): `rmState.ReadFrom` starting from the zero-value
state; on error, both slices are truncated to empty and every timer
stopped, and the condition is logged; `constructRMState` then returns
`nil` either way, so a parse error is not fatal to the process. -/
def restoreFromText (now : Int) (input : List Char) : RestoreOutcome :=
  match RState.ReadFrom now emptyState input with
  | .ok st => .normal st false
  | .err _ => .normal emptyState true
  | .crash st => .crash st

/-! ### Concrete stores used as test inputs, witnesses and counterexamples -/

/-- A reminder that is already due. -/
def rDue : Reminder := ⟨"u", 0, 0, "m"⟩

/-- Reminder for user `u` expiring at t = 5 ns. -/
def r5 : Reminder := ⟨"u", 0, 5, "m5"⟩

/-- Reminder for user `u` expiring at t = 10 ns. -/
def r10 : Reminder := ⟨"u", 0, 10, "m10"⟩

/-- The store produced by `Add r5; Add r10` at time 0: the user's range
holds the two reminders in insertion order `[r5, r10]` with their paired
timers. -/
def stTwo : RState := ⟨[r5, r10], [⟨"u", 5⟩, ⟨"u", 10⟩]⟩

/-- A store holding a single live reminder with its armed timer. -/
def rOne : Reminder := ⟨"u", 0, 100, "m"⟩

def tOne : Timer := ⟨"u", 100⟩

def stOne : RState := ⟨[rOne], [tOne]⟩

/-- A reminder whose message contains a double-quote character
(`a"b`), with creation 2006-01-02T15:04:05Z and expiration one hour
later. -/
def rQuoteMsg : Reminder :=
  ⟨"u1", 1136214245000000000, 1136217845000000000, "a\"b"⟩

def stQuote : RState := ⟨[rQuoteMsg], [⟨"u1", 1136217845000000000⟩]⟩

/-- A snapshot consisting of one record with only three fields, all of
them well-formed (two valid RFC3339Nano timestamps): `encoding/csv`
accepts the line, and `ReadFrom` then indexes `record[3]` out of range. -/
def shortRecordSnapshot : List Char :=
  "u,2006-01-02T15:04:05Z,2006-01-02T15:04:05Z\n".data

/-! ### Helper lemmas -/

theorem searchLoop_le (f : Nat → Bool) :
    ∀ (fuel i j : Nat), i ≤ j → searchLoop f fuel i j ≤ j
  | 0, _, _, h => h
  | fuel + 1, i, j, h => by
    simp only [searchLoop]
    split
    · split
      · exact (searchLoop_le f fuel i ((i + j) / 2) (by omega)).trans (by omega)
      · exact searchLoop_le f fuel ((i + j) / 2 + 1) j (by omega)
    · exact h

theorem sortSearch_le (n : Nat) (f : Nat → Bool) : sortSearch n f ≤ n :=
  searchLoop_le f n 0 n (Nat.zero_le n)

theorem getD_eq_getElem {α : Type} (l : List α) (k : Nat) (d : α) (h : k < l.length) :
    l.getD k d = l[k] := by
  simp [List.getD_eq_getElem?_getD, List.getElem?_eq_getElem h]

theorem getD_drop_take {α : Type} (l : List α) (i j m : Nat) (d : α)
    (h : m < ((l.take j).drop i).length) :
    ((l.take j).drop i).getD m d = l.getD (i + m) d := by
  have hlen : ((l.take j).drop i).length = min j l.length - i := by
    simp [List.length_drop, List.length_take]
  have hj : i + m < j := by omega
  have hl : i + m < l.length := by omega
  simp [List.getD_eq_getElem?_getD, List.getElem?_drop, List.getElem?_take, hj]

theorem getElem?_insertIdx {α : Type} (x : α) :
    ∀ (i : Nat) (l : List α) (k : Nat), i ≤ l.length →
      (l.insertIdx i x)[k]? =
        if k < i then l[k]? else if k = i then some x else l[k - 1]?
  | 0, l, k, _ => by
    cases k <;> simp
  | i + 1, [], k, h => by simp at h
  | i + 1, c :: l, 0, h => by simp
  | i + 1, c :: l, k + 1, h => by
    have ih := getElem?_insertIdx x i l k (Nat.le_of_succ_le_succ h)
    simp only [List.insertIdx_succ_cons, List.getElem?_cons_succ, ih]
    rcases Nat.lt_trichotomy k i with hlt | heq | hgt
    · simp [hlt, Nat.succ_lt_succ hlt]
    · simp [heq]
    · have h1 : ¬ k < i := by omega
      have h2 : ¬ k = i := by omega
      have h3 : ¬ k + 1 < i + 1 := by omega
      have h4 : ¬ k + 1 = i + 1 := by omega
      have h5 : 1 ≤ k := by omega
      simp only [h1, h2, h3, h4, if_false]
      have : k + 1 - (i + 1) + (i + 1) = k + 1 := by omega
      cases k with
      | zero => omega
      | succ k' => simp

/-- Inserting a reminder and its own freshly armed timer at the same index
preserves the parallel pairing. -/
theorem paired_insertIdx {st : RState} (hp : st.paired) (r : Reminder) (t : Timer)
    (hu : t.userID = r.userID) (he : t.expiration = r.expiration)
    (i : Nat) (hi : i ≤ st.reminders.length) :
    RState.paired ⟨st.reminders.insertIdx i r, st.timers.insertIdx i t⟩ := by
  obtain ⟨hlen, helem⟩ := hp
  have hi' : i ≤ st.timers.length := by omega
  constructor
  · simp only [List.length_insertIdx _ _ hi, List.length_insertIdx _ _ hi', hlen]
  · intro k hk
    rw [List.length_insertIdx _ _ hi] at hk
    rw [getElem?_insertIdx r i st.reminders k hi, getElem?_insertIdx t i st.timers k hi']
    rcases Nat.lt_trichotomy k i with hlt | heq | hgt
    · simp only [hlt, if_true]
      exact helem k (by omega)
    · simp [heq, hu, he]
    · have h1 : ¬ k < i := by omega
      have h2 : ¬ k = i := by omega
      simp only [h1, h2, if_false]
      exact helem (k - 1) (by omega)

/-- Removing the records at one common index from both slices preserves
the parallel pairing. -/
theorem paired_eraseIdx {st : RState} (hp : st.paired) (k : Nat) :
    RState.paired ⟨st.reminders.eraseIdx k, st.timers.eraseIdx k⟩ := by
  obtain ⟨hlen, helem⟩ := hp
  constructor
  · simp only [List.length_eraseIdx, hlen]
  · intro m hm
    rw [List.length_eraseIdx] at hm
    rw [List.getElem?_eraseIdx, List.getElem?_eraseIdx]
    split
    · refine helem m ?_
      split at hm <;> omega
    · refine helem (m + 1) ?_
      split at hm <;> omega

/-- The `Add` path of the parallel invariant. -/
theorem paired_Add (now : Int) (st : RState) (r : Reminder) (hp : st.paired) :
    ((RState.Add now st r).state).paired := by
  simp only [RState.Add]
  split
  · exact hp
  · exact paired_insertIdx hp r ⟨r.userID, r.expiration⟩ rfl rfl _
      (sortSearch_le st.reminders.length _)

/-- The `Remove` path of the parallel invariant. -/
theorem paired_Remove (now : Int) (st : RState) (u : String) (e : Int) (hp : st.paired) :
    ((RState.Remove now st u e).1).paired := by
  simp only [RState.Remove]
  split_ifs <;> first
    | exact hp
    | exact paired_eraseIdx hp _

/-- If the matched record's timer has already fired (`e ≤ now`, so the
`Stop()` guard fails), `Remove` reaches the guard with a timer armed for
`e` and the guard is false. -/
theorem remove_stop_guard (st : RState) (now e : Int) (i j k0 : Nat)
    (hp : st.paired) (hfired : e ≤ now)
    (hk0le : k0 ≤ ((st.reminders.take j).drop i).length) (hk0 : k0 ≠ 0)
    (hexp : (((st.reminders.take j).drop i).getD (k0 - 1) defaultReminder).expiration = e) :
    Timer.StopOk now (st.timers.getD (k0 - 1 + i) defaultTimer) = false := by
  obtain ⟨hlen, helem⟩ := hp
  have hm : k0 - 1 < ((st.reminders.take j).drop i).length := by omega
  have hlen2 : ((st.reminders.take j).drop i).length = min j st.reminders.length - i := by
    simp [List.length_drop, List.length_take]
  have hidx : i + (k0 - 1) < st.reminders.length := by omega
  rw [getD_drop_take st.reminders i j (k0 - 1) defaultReminder hm] at hexp
  rw [getD_eq_getElem st.reminders (i + (k0 - 1)) defaultReminder hidx] at hexp
  have hidx' : i + (k0 - 1) < st.timers.length := by omega
  have hpair := (helem (i + (k0 - 1)) hidx).2
  rw [List.getElem?_eq_getElem hidx, List.getElem?_eq_getElem hidx'] at hpair
  simp only [Option.map_some'] at hpair
  have hkk : k0 - 1 + i = i + (k0 - 1) := by omega
  rw [hkk, getD_eq_getElem st.timers (i + (k0 - 1)) defaultTimer hidx']
  have : (st.timers[i + (k0 - 1)]).expiration = e := by
    rw [Option.some.injEq] at hpair
    omega
  simp only [Timer.StopOk, this, decide_eq_false_iff_not]
  omega

/-- Contradiction form of `remove_stop_guard`: the `Stop()` guard cannot
succeed on the matched record's timer once that timer's fire time has
passed. -/
theorem remove_stop_contra (st : RState) (now e : Int) (i j k0 : Nat)
    (hp : st.paired) (hfired : e ≤ now)
    (hk0le : k0 ≤ ((st.reminders.take j).drop i).length) (hk0 : k0 ≠ 0)
    (hexp : (((st.reminders.take j).drop i).getD (k0 - 1) defaultReminder).expiration = e)
    (hstop : Timer.StopOk now (st.timers.getD (k0 - 1 + i) defaultTimer) = true) : False := by
  rw [remove_stop_guard st now e i j k0 hp hfired hk0le hk0 hexp] at hstop
  exact Bool.noConfusion hstop

/-! ### Claim theorems -/

/-- C1: the claim states that serializing the live-reminder set with
`WriteTo` and parsing it back with `ReadFrom` yields an identical set for
every message, including messages containing quotes.  Evaluating the code
at a store whose single message is `a"b`: `reminder.String` emits the Go
`%q` escape `\"`, the CSV reader (which expects doubled quotes) rejects
the line, and the restore resets the store to empty — the round-trip loses
the reminder instead of reproducing it. -/
theorem c1_quote_message_breaks_roundtrip :
    restoreFromText 1136214245000000000 (RState.WriteTo stQuote) =
      RestoreOutcome.normal emptyState true ∧
    emptyState ≠ stQuote := by decide

/-- C2: the claim states that `Remove` with the exact `(userID,
expiration)` of a live reminder, called strictly before its expiration,
succeeds for every store content.  Evaluating the code on the store built
by `Add r5; Add r10` (one user, two live reminders with distinct
expirations, in insertion order): cancelling `r5` at time 0 (strictly
before its expiration 5) returns `false` and leaves the store unchanged,
so the timer later fires and delivers. -/
theorem c2_cancel_before_expiration_misses :
    (RState.Add 0 ((RState.Add 0 emptyState r5).state) r10).state = stTwo ∧
    (0 : Int) < r5.expiration ∧
    RState.Remove 0 stTwo r5.userID r5.expiration = (stTwo, false) := by decide

/-- C3: the claim states that after every sequence of `Add` calls the
store is sorted primarily by userID and secondarily by expiration.
Evaluating the code on `Add r10; Add r5` (same user, later expiration
added first): the resulting user range is `[r10, r5]`, which is not
sorted by expiration — `Add`'s search compares only userIDs and always
inserts at the end of the user's range. -/
theorem c3_user_range_not_sorted_by_expiration :
    ((RState.Add 0 ((RState.Add 0 emptyState r10).state) r5).state).reminders = [r10, r5] ∧
    ¬ List.Pairwise (fun a b => a.expiration ≤ b.expiration)
        ((RState.Add 0 ((RState.Add 0 emptyState r10).state) r5).state).reminders := by decide

/-- C4: the claim states that a firing timer's callback removes its record
from the store (by identity) and that a record missing at removal time is
a fatal internal error.  Evaluating the code on a store holding exactly
one live reminder whose timer fires at its expiration: the callback's
`Remove(userID, expiration)` finds the record but then calls `Stop()` on
the record's own just-fired timer, which reports `false`, so `Remove`
returns `false` after only logging — the record is never removed and
nothing fatal is raised. -/
theorem c4_fired_callback_removes_nothing :
    timerFire rOne.expiration stOne tOne = (stOne, false) ∧
    stOne.reminders = [rOne] := by decide

/-- C5: the claim states that any snapshot with an unparsable line makes
`Restore` return an error (not fatal) and reset the store to empty.
Evaluating the code on a snapshot whose single line has only three
well-formed fields (valid CSV, valid timestamps, missing message):
`ReadFrom` indexes `record[3]` out of range, a runtime panic that crashes
the process instead of the promised error-and-reset path. -/
theorem c5_short_record_crashes :
    restoreFromText 0 shortRecordSnapshot = RestoreOutcome.crash emptyState := by decide

/-- C6: when the matched reminder's timer has already fired or is firing
(its fire time has passed, so `Stop()` reports failure), `Remove` returns
`false` and leaves the store exactly as it was: the firing callback is
left to do the removal and no double removal can occur. -/
theorem c6_firing_timer_not_cancellable (now : Int) (st : RState) (u : String) (e : Int)
    (hp : st.paired) (hfired : e ≤ now) :
    RState.Remove now st u e = (st, false) := by
  simp only [RState.Remove]
  split_ifs with h1 h2 h3 h4
  · rfl
  · rfl
  · rfl
  · exact absurd (remove_stop_contra st now e _ _ _ hp hfired
      (sortSearch_le _ _) h2 (not_not.mp h3) h4) id
  · rfl

theorem c6_witness : RState.Remove 100 stOne "u" 100 = (stOne, false) :=
  c6_firing_timer_not_cancellable 100 stOne "u" 100 (by decide) (by decide)

/-- C7: every store operation — `Add`, `Remove`, the timer-callback
removal, the restore reset and shutdown — preserves the invariant that the
`reminders` and `timers` slices have the same length and pair up at the
same indices (each reminder aligned with its own timer). -/
theorem c7_parallel_slices_preserved (now : Int) (st : RState) (r : Reminder)
    (u : String) (e : Int) (t : Timer) :
    (st.paired → ((RState.Add now st r).state).paired) ∧
    (st.paired → ((RState.Remove now st u e).1).paired) ∧
    (st.paired → ((timerFire now st t).1).paired) ∧
    RState.paired emptyState ∧
    (st.paired → (shutdownStores st).paired) :=
  ⟨paired_Add now st r, paired_Remove now st u e,
   fun hp => paired_Remove now st t.userID t.expiration hp,
   by decide,
   fun hp => hp⟩

theorem c7_witness :
    ((RState.Add 0 stOne r5).state).paired ∧
    ((RState.Remove 100 stOne "u" 100).1).paired ∧
    ((timerFire 100 stOne tOne).1).paired ∧
    RState.paired emptyState ∧
    (shutdownStores stOne).paired :=
  ⟨(c7_parallel_slices_preserved 0 stOne r5 "u" 100 tOne).1 (by decide),
   (c7_parallel_slices_preserved 100 stOne r5 "u" 100 tOne).2.1 (by decide),
   (c7_parallel_slices_preserved 100 stOne r5 "u" 100 tOne).2.2.1 (by decide),
   (c7_parallel_slices_preserved 0 stOne r5 "u" 100 tOne).2.2.2.1,
   (c7_parallel_slices_preserved 0 stOne r5 "u" 100 tOne).2.2.2.2 (by decide)⟩

/-- C8: a reminder whose expiration is already in the past at `Add` time
is delivered synchronously inline (`sentNow`), before `Add` returns, and
no timer is armed (the store, including the timers slice, is untouched). -/
theorem c8_past_due_sent_inline (now : Int) (st : RState) (r : Reminder)
    (h : r.expiration ≤ now) :
    (RState.Add now st r).sentNow = true ∧ (RState.Add now st r).state = st := by
  have hle : r.expiration - now ≤ 1 := by omega
  simp [RState.Add, hle]

theorem c8_witness :
    (RState.Add 0 emptyState rDue).sentNow = true ∧
    (RState.Add 0 emptyState rDue).state = emptyState :=
  c8_past_due_sent_inline 0 emptyState rDue (by decide)

/-- C9: whenever `Add` takes the already-due branch (at most 1 ns until
expiration), the reminders and timers slices are left completely
unchanged: the reminder is delivered but never inserted. -/
theorem c9_due_add_frame (now : Int) (st : RState) (r : Reminder)
    (h : r.expiration - now ≤ 1) :
    (RState.Add now st r).state.reminders = st.reminders ∧
    (RState.Add now st r).state.timers = st.timers ∧
    (RState.Add now st r).sentNow = true := by
  simp [RState.Add, h]

theorem c9_witness :
    (RState.Add 1 stTwo rDue).state.reminders = stTwo.reminders ∧
    (RState.Add 1 stTwo rDue).state.timers = stTwo.timers ∧
    (RState.Add 1 stTwo rDue).sentNow = true :=
  c9_due_add_frame 1 stTwo rDue (by decide)

/-- C10: whenever `Remove` returns `false` (empty user range, no
expiration match, or timer already firing), the store is exactly as it was
before the call. -/
theorem c10_failed_remove_frame (now : Int) (st : RState) (u : String) (e : Int)
    (h : (RState.Remove now st u e).2 = false) :
    (RState.Remove now st u e).1 = st := by
  simp only [RState.Remove] at h ⊢
  split_ifs at h ⊢ <;> simp_all

theorem c10_witness : (RState.Remove 0 stTwo "v" 5).1 = stTwo :=
  c10_failed_remove_frame 0 stTwo "v" 5 (by decide)

end Remindme
